import Mathlib

/-!
Shallow embedding of the Neo4j service layer of the social-network app
(`backend/app/services/neo4j_service.py`).

The graph store holds `User` nodes, `Post` nodes, property-less `FOLLOWS`
edges between users and property-less `POSTED` edges from a user to a post.
Each method of `Neo4jService` issues one Cypher query; here every method is
modelled as a pure function over an explicit `GraphStore` value.  Node ids
are taken as the node identity (the application keys every node by a unique
`id` property), so an edge is a pair of ids.  Timestamps (`createdAt`) are
modelled as natural numbers; the real code stores ISO strings / datetimes
whose comparison order agrees with the numeric order.  Python exceptions are
modelled with `Except`: `pydantic.ValidationError`, `TypeError` and
`ValueError` are the three kinds the claims mention.
-/

namespace Neo4jApp

/-- A `User` node.  `create_user` always writes all six properties, so they
are total here. -/
structure User where
  id : String
  name : String
  username : String
  email : String
  bio : String
  avatar : String
deriving DecidableEq, Repr

/-- A `Post` node.  `get_feed_posts` reads `id` and `content` with
`post.get(...)`, guarding against missing or empty values, so the two
fields are optional here (`none` models an absent property). -/
structure Post where
  id : Option String
  content : Option String
  createdAt : Nat
deriving DecidableEq, Repr

/-- The graph store: `User` nodes, `FOLLOWS` edges (pairs of user ids,
source first) and `POSTED` edges (author id paired with the post node). -/
structure GraphStore where
  users : List User
  follows : List (String × String)
  posted : List (String × Post)
deriving DecidableEq, Repr

/-- The `UserProfile` pydantic model: `id`, `name`, `username`, `email`
required; `bio`, `avatar` and the two counts have defaults. -/
structure UserProfile where
  id : String
  name : String
  username : String
  email : String
  bio : String
  avatar : String
  followers_count : Nat
  following_count : Nat
deriving DecidableEq, Repr

/-- The `FeedPostAuthor` pydantic model. -/
structure FeedPostAuthor where
  id : String
  name : String
  username : String
deriving DecidableEq, Repr

/-- The `FeedPost` pydantic model (timestamps as naturals, see the header). -/
structure FeedPost where
  id : String
  content : String
  createdAt : Nat
  author : FeedPostAuthor
deriving DecidableEq, Repr

/-- The Python exception kinds relevant to the service layer. -/
inductive PyError where
  | validationError
  | typeError
  | valueError
deriving DecidableEq, Repr

instance {e a : Type} [DecidableEq e] [DecidableEq a] :
    DecidableEq (Except e a) := fun x y =>
  match x, y with
  | Except.error u, Except.error v => decidable_of_iff (u = v) (by simp)
  | Except.error _, Except.ok _ => isFalse (fun h => Except.noConfusion h)
  | Except.ok _, Except.error _ => isFalse (fun h => Except.noConfusion h)
  | Except.ok u, Except.ok v => decidable_of_iff (u = v) (by simp)

/-- Whether a `User` node with the given id exists (a `MATCH (u:User {id: $x})`
pattern succeeds). -/
def userExists (s : GraphStore) (uid : String) : Bool :=
  s.users.any (fun u => u.id == uid)

/-- Whether a `FOLLOWS` edge `a → b` is present. -/
def hasEdge (s : GraphStore) (a b : String) : Bool :=
  s.follows.contains (a, b)

/-- Calling the `UserProfile` pydantic constructor with an optional value per
field: validation fails (`pydantic.ValidationError`) when a field without a
default is missing, otherwise the defaults fill in. -/
def pydanticUserProfile (idArg nameArg usernameArg emailArg bioArg avatarArg :
    Option String) (followersArg followingArg : Option Nat) :
    Except PyError UserProfile :=
  match idArg, nameArg, usernameArg, emailArg with
  | some i, some n, some un, some e =>
      Except.ok { id := i, name := n, username := un, email := e,
                  bio := bioArg.getD "", avatar := avatarArg.getD "avatar_1",
                  followers_count := followersArg.getD 0,
                  following_count := followingArg.getD 0 }
  | _, _, _, _ => Except.error PyError.validationError

/-- The `UserProfile` built from a full `User` node with both counts left at
their default `0`, as in `update_user`'s `RETURN`. -/
def baseProfile (u : User) : UserProfile :=
  { id := u.id, name := u.name, username := u.username, email := u.email,
    bio := u.bio, avatar := u.avatar, followers_count := 0,
    following_count := 0 }

/-- `create_user`: `CREATE (u:User {...})` adds one node with all six
properties. -/
def create_user (s : GraphStore) (u : User) : GraphStore :=
  { s with users := s.users ++ [u] }

/-- `is_username_available`: counts users whose lowercased username equals the
lowercased candidate and reports whether the count is zero. -/
def is_username_available (s : GraphStore) (username : String) : Bool :=
  (s.users.filter (fun u => u.username.toLower == username.toLower)).length == 0

/-- `is_username_available_for_user`: the same count but skipping the node
whose `id` equals `current_user_id`. -/
def is_username_available_for_user (s : GraphStore) (username current_user_id :
    String) : Bool :=
  (s.users.filter (fun u =>
    u.username.toLower == username.toLower && u.id != current_user_id)).length == 0

/-- `update_user`: `MATCH (u:User {id: $user_id}) SET ... RETURN u`.  The
`SET` rewrites every matched node; `single()` then yields the first returned
row or `None`, and `None` makes the Python raise `ValueError` (`NotFound`).
The pair holds the store after the query and the outcome. -/
def update_user (s : GraphStore) (user_id name username bio avatar : String) :
    GraphStore × Except PyError UserProfile :=
  let users2 := s.users.map (fun u =>
    if u.id == user_id then
      { u with name := name, username := username, bio := bio, avatar := avatar }
    else u)
  let s2 : GraphStore := { s with users := users2 }
  match users2.find? (fun u => u.id == user_id) with
  | none => (s2, Except.error PyError.valueError)
  | some u => (s2, Except.ok (baseProfile u))

/-- `follow_user`: `MATCH (u {id}), (t {id}) MERGE (u)-[:FOLLOWS]->(t)`.
When both nodes exist, `MERGE` keeps an existing edge or creates the missing
one; when either node is absent the pattern yields no row and the Python only
prints a warning, leaving the store untouched. -/
def follow_user (s : GraphStore) (user_id target_id : String) : GraphStore :=
  if userExists s user_id && userExists s target_id then
    if s.follows.contains (user_id, target_id) then s
    else { s with follows := s.follows ++ [(user_id, target_id)] }
  else s

/-- `unfollow_user`: `MATCH (u {id})-[f:FOLLOWS]->(t {id}) DELETE f` removes
every matched edge; with no match it is a no-op. -/
def unfollow_user (s : GraphStore) (user_id target_id : String) : GraphStore :=
  if userExists s user_id && userExists s target_id then
    { s with follows := s.follows.filter (fun e => !(e == (user_id, target_id))) }
  else s

/-- `get_following`: the users `f` with an edge `user_id → f`. -/
def get_following (s : GraphStore) (user_id : String) : List User :=
  s.users.filter (fun f => hasEdge s user_id f.id)

/-- `get_followers`: the users `f` with an edge `f → user_id`. -/
def get_followers (s : GraphStore) (user_id : String) : List User :=
  s.users.filter (fun f => hasEdge s f.id user_id)

/-- `get_mutual_connections`: the users followed by both arguments. -/
def get_mutual_connections (s : GraphStore) (user1 user2 : String) : List User :=
  s.users.filter (fun m => hasEdge s user1 m.id && hasEdge s user2 m.id)

/-- The rows of `get_feed_posts`' query before ordering: one `(post, author)`
pair per `(me)-[:FOLLOWS]->(followed)-[:POSTED]->(post)` match. -/
def feedRows (s : GraphStore) (user_id : String) : List (Post × User) :=
  (s.users.filter (fun f => hasEdge s user_id f.id)).flatMap (fun f =>
    (s.posted.filter (fun ap => ap.1 == f.id)).map (fun ap => (ap.2, f)))

/-- The Python guard `not post.get("id") or not post.get("content")` skips a
post; a post is kept when both fields are present and non-empty. -/
def postValid (p : Post) : Bool :=
  !(p.id.getD "" == "") && !(p.content.getD "" == "")

/-- The `FeedPost` the loop body of `get_feed_posts` builds from one row:
the post fields (known present once the guard passed) and the compact
author summary `id`/`name`/`username`. -/
def mkFeedPost (p : Post) (f : User) : FeedPost :=
  { id := p.id.getD "", content := p.content.getD "",
    createdAt := p.createdAt,
    author := { id := f.id, name := f.name, username := f.username } }

/-- `get_feed_posts`: the query rows ordered by `createdAt DESC`, with
malformed posts skipped and the rest packaged as `FeedPost` values. -/
def get_feed_posts (s : GraphStore) (user_id : String) : List FeedPost :=
  ((feedRows s user_id).mergeSort
      (fun a b => Nat.ble b.1.createdAt a.1.createdAt)).filterMap (fun r =>
    if postValid r.1 then some (mkFeedPost r.1 r.2) else none)

/-- `count(DISTINCT u2)` in the suggestions query: the number of distinct
intermediate users `u2` with `user_id → u2 → cid`. -/
def mutualCount (s : GraphStore) (user_id cid : String) : Nat :=
  (s.users.filter (fun u2 => hasEdge s user_id u2.id && hasEdge s u2.id cid)).length

/-- `count(DISTINCT follower)`: the number of distinct users following `cid`
(zero when the `OPTIONAL MATCH` finds none). -/
def followerCount (s : GraphStore) (cid : String) : Nat :=
  (s.users.filter (fun f => hasEdge s f.id cid)).length

/-- The rows of `get_following_suggestions`' query: candidates reachable in
two `FOLLOWS` hops from `user_id`, not already followed and not `user_id`
itself, each with its `mutualCount` and follower count, ordered by
`mutualCount DESC`.  The query ends in a literal `LIMIT 10`; the method's
`limit` parameter is never interpolated. -/
def suggestionRows (s : GraphStore) (user_id : String) :
    List (User × Nat × Nat) :=
  (((s.users.filter (fun c =>
      s.users.any (fun u2 => hasEdge s user_id u2.id && hasEdge s u2.id c.id)
      && !(hasEdge s user_id c.id) && c.id != user_id)).map (fun c =>
        (c, mutualCount s user_id c.id, followerCount s c.id))).mergeSort
    (fun a b => Nat.ble b.2.1 a.2.1)).take 10

/-- One iteration of the result-building loop shared by
`get_following_suggestions`, `search_users`, `explore_popular_users` and
`get_all_users_except`.  A misplaced closing parenthesis makes the source read
`lst.append(UserProfile(id=str(node["id"])), name=..., ...)`: the constructor
receives only `id`, so evaluating that argument raises
`pydantic.ValidationError`; had it succeeded, `list.append` would then have
been called with unexpected keyword arguments and raised `TypeError`. -/
def brokenAppend (acc : List UserProfile) (nodeId : String) :
    Except PyError (List UserProfile) :=
  match pydanticUserProfile (some nodeId) none none none none none none none with
  | Except.error e => Except.error e
  | Except.ok _ => Except.error PyError.typeError

/-- The whole broken loop over the returned rows (here reduced to the node
ids actually consumed before the failure), starting from the empty list. -/
def buildBroken (ids : List String) : Except PyError (List UserProfile) :=
  ids.foldlM brokenAppend []

/-- `get_following_suggestions`: the query rows fed through the broken
result-building loop.  The `limit` parameter is accepted but unused, exactly
as in the source (the Cypher hardcodes `LIMIT 10`). -/
def get_following_suggestions (s : GraphStore) (user_id : String)
    (limit : Nat) : Except PyError (List UserProfile) :=
  buildBroken ((suggestionRows s user_id).map (fun r => r.1.id))

/-- Whether `sub` occurs as a contiguous run at the front of `hay`
(Cypher `STARTS WITH` on character lists). -/
def chStarts : List Char → List Char → Bool
  | [], _ => true
  | _ :: _, [] => false
  | c :: cs, d :: ds => c == d && chStarts cs ds

/-- Whether `sub` occurs contiguously anywhere in `hay` (Cypher `CONTAINS`
on character lists). -/
def chContains (hay sub : List Char) : Bool :=
  match hay with
  | [] => sub.isEmpty
  | _ :: rest => chStarts sub hay || chContains rest sub

/-- Cypher `CONTAINS` on strings. -/
def strContains (hay sub : String) : Bool :=
  chContains hay.data sub.data

/-- The rows of `search_users`' query: users whose lowercased name or
username contains the lowercased term, excluding `user_id`, each with its
follower count; the query has no `ORDER BY`. -/
def searchRows (s : GraphStore) (search_term user_id : String) :
    List (User × Nat) :=
  (s.users.filter (fun u =>
    (strContains u.name.toLower search_term.toLower
      || strContains u.username.toLower search_term.toLower)
    && u.id != user_id)).map (fun u => (u, followerCount s u.id))

/-- `search_users`: the query rows fed through the broken loop. -/
def search_users (s : GraphStore) (search_term user_id : String) :
    Except PyError (List UserProfile) :=
  buildBroken ((searchRows s search_term user_id).map (fun r => r.1.id))

/-- The rows of `explore_popular_users`' query: users with at least one
follower (the `MATCH (u)<-[:FOLLOWS]-(u2)` pattern needs a follower to
match), with their distinct-follower counts, ordered descending and cut at
`$limit` (this query does interpolate its limit). -/
def popularRows (s : GraphStore) (limit : Nat) : List (User × Nat) :=
  (((s.users.filter (fun u => !(followerCount s u.id == 0))).map (fun u =>
      (u, followerCount s u.id))).mergeSort
    (fun a b => Nat.ble b.2 a.2)).take limit

/-- `explore_popular_users`: the query rows fed through the broken loop. -/
def explore_popular_users (s : GraphStore) (limit : Nat) :
    Except PyError (List UserProfile) :=
  buildBroken ((popularRows s limit).map (fun r => r.1.id))

/-- The rows of `get_all_users_except`' query: every user but `user_id`,
ordered by username ascending. -/
def allExceptRows (s : GraphStore) (user_id : String) : List User :=
  (s.users.filter (fun u => u.id != user_id)).mergeSort
    (fun a b => decide (a.username ≤ b.username))

/-- `get_all_users_except`: the query rows fed through the broken loop. -/
def get_all_users_except (s : GraphStore) (user_id : String) :
    Except PyError (List UserProfile) :=
  buildBroken ((allExceptRows s user_id).map (fun u => u.id))

/-- Store well-formedness maintained by the application: node ids are unique
(every node is created with a fresh id) and `FOLLOWS` edges are never
duplicated (`MERGE` is the only way an edge appears). -/
def Wf (s : GraphStore) : Prop :=
  (s.users.map User.id).Nodup ∧ s.follows.Nodup

instance (s : GraphStore) : Decidable (Wf s) := by
  unfold Wf; infer_instance

/-- A demo user with id `a`. -/
def uA : User :=
  { id := "a", name := "Ana", username := "ana", email := "a@x.io",
    bio := "", avatar := "avatar_1" }

/-- A demo user with id `b`. -/
def uB : User :=
  { id := "b", name := "Ben", username := "ben", email := "b@x.io",
    bio := "", avatar := "avatar_1" }

/-- A demo user with id `c`. -/
def uC : User :=
  { id := "c", name := "Cyd", username := "cyd", email := "c@x.io",
    bio := "", avatar := "avatar_1" }

/-- A demo user with id `d`. -/
def uD : User :=
  { id := "d", name := "Dee", username := "dee", email := "d@x.io",
    bio := "", avatar := "avatar_1" }

/-- A demo user whose username is `Alice` (mixed case). -/
def aliceUser : User :=
  { id := "alice1", name := "Alice", username := "Alice",
    email := "alice@x.io", bio := "", avatar := "avatar_1" }

/-- A store with one user. -/
def oneUserStore : GraphStore := { users := [uA], follows := [], posted := [] }

/-- A store with users `a`, `b` and the single edge `a → b`. -/
def twoUserStore : GraphStore :=
  { users := [uA, uB], follows := [("a", "b")], posted := [] }

/-- A store where `a` follows `b` and `b` follows `c` and `d`: the
friend-of-friend suggestion candidates for `a` are `c` and `d`. -/
def sugStore : GraphStore :=
  { users := [uA, uB, uC, uD],
    follows := [("a", "b"), ("b", "c"), ("b", "d")], posted := [] }

/-- Neither branch of `follow_user` touches the user list. -/
theorem follow_user_users (s : GraphStore) (a b : String) :
    (follow_user s a b).users = s.users := by
  unfold follow_user
  split
  · split <;> rfl
  · rfl

/-- Neither branch of `follow_user` touches the `POSTED` edges. -/
theorem follow_user_posted (s : GraphStore) (a b : String) :
    (follow_user s a b).posted = s.posted := by
  unfold follow_user
  split
  · split <;> rfl
  · rfl

/-- The broken loop on an empty row list returns the empty list. -/
theorem buildBroken_nil : buildBroken [] = Except.ok [] := rfl

/-- The broken loop on any non-empty row list stops at the first row with a
`pydantic.ValidationError`. -/
theorem buildBroken_cons (i : String) (is : List String) :
    buildBroken (i :: is) = Except.error PyError.validationError := rfl

/-- C9: `get_mutual_connections` is commutative, and its members are exactly
the users appearing in both `get_following` lists. -/
theorem mutual_connections_commutative (s : GraphStore) (a b : String) :
    get_mutual_connections s a b = get_mutual_connections s b a ∧
    ∀ m, m ∈ get_mutual_connections s a b ↔
      m ∈ get_following s a ∧ m ∈ get_following s b := by
  constructor
  · unfold get_mutual_connections
    exact List.filter_congr (fun m _ => by rw [Bool.and_comm])
  · intro m
    simp only [get_mutual_connections, get_following, List.mem_filter,
      Bool.and_eq_true]
    tauto

/-- C8: when either endpoint is missing, `follow_user` changes nothing and
raises nothing (the model is a total function into stores). -/
theorem follow_user_missing_node (s : GraphStore) (a b : String)
    (h : userExists s a = false ∨ userExists s b = false) :
    follow_user s a b = s := by
  unfold follow_user
  rcases h with h | h <;> simp [h]

/-- Witness for C8: following the absent user `zz` from `a` leaves the
two-user store unchanged. -/
theorem follow_user_missing_node_witness :
    follow_user twoUserStore "a" "zz" = twoUserStore :=
  follow_user_missing_node twoUserStore "a" "zz" (Or.inr (by decide))

unseal String.mapAux in
/-- C4: `is_username_available` answers `true` exactly when no stored user
has a case-insensitively equal username; in particular after creating the
user `Alice` the candidate `alice` is reported taken. -/
theorem is_username_available_spec :
    (∀ (s : GraphStore) (c : String), is_username_available s c = true ↔
      ∀ u ∈ s.users, u.username.toLower ≠ c.toLower) ∧
    (∀ s : GraphStore,
      is_username_available (create_user s aliceUser) "alice" = false) := by
  constructor
  · intro s c
    simp [is_username_available, List.length_eq_zero, List.filter_eq_nil_iff]
  · intro s
    have halice : (aliceUser.username.toLower == "alice".toLower) = true := by
      decide
    simp [is_username_available, create_user, List.filter_append, halice]

/-- C5: `is_username_available_for_user` answers `true` exactly when every
case-insensitive username match is the excluded user itself; in particular a
user whose username is unique to them may keep it. -/
theorem is_username_available_for_user_spec :
    (∀ (s : GraphStore) (un x : String),
      is_username_available_for_user s un x = true ↔
      ∀ u ∈ s.users, u.username.toLower = un.toLower → u.id = x) ∧
    (∀ (s : GraphStore) (me : User), me ∈ s.users →
      (∀ u ∈ s.users, u.username.toLower = me.username.toLower → u.id = me.id) →
      is_username_available_for_user s me.username me.id = true) := by
  have h1 : ∀ (s : GraphStore) (un x : String),
      is_username_available_for_user s un x = true ↔
      ∀ u ∈ s.users, u.username.toLower = un.toLower → u.id = x := by
    intro s un x
    simp [is_username_available_for_user, List.length_eq_zero,
      List.filter_eq_nil_iff]
  exact ⟨h1, fun s me _ hu => (h1 s me.username me.id).mpr hu⟩

unseal String.mapAux in
/-- Witness for C5: in the one-user store, the sole user keeps their own
username. -/
theorem is_username_available_for_user_witness :
    is_username_available_for_user oneUserStore uA.username uA.id = true :=
  is_username_available_for_user_spec.2 oneUserStore uA (by decide) (by decide)

/-- A `contains` test is a membership test (for lawful `BEq`). -/
theorem contains_true_iff {α : Type} [BEq α] [LawfulBEq α] {l : List α}
    {a : α} : l.contains a = true ↔ a ∈ l :=
  List.elem_iff

/-- On a duplicate-free list, a member is counted exactly once (stated for
any lawful `BEq` so it applies at the instances `List.count` picks up). -/
theorem count_eq_one_of_nodup_mem {α : Type} [BEq α] [LawfulBEq α] {a : α}
    {l : List α} (hnd : l.Nodup) (hm : a ∈ l) : l.count a = 1 := by
  induction l with
  | nil => cases hm
  | cons x xs ih =>
    rcases List.mem_cons.mp hm with rfl | hm2
    · rw [List.count_cons_self, List.count_eq_zero.mpr (List.nodup_cons.mp hnd).1]
    · have hne : (x == a) = false := by
        have hx := (List.nodup_cons.mp hnd).1
        refine beq_eq_false_iff_ne.mpr ?_
        rintro rfl
        exact hx hm2
      rw [List.count_cons, hne, ih (List.nodup_cons.mp hnd).2 hm2]
      simp

/-- C7: `unfollow_user` on an absent edge is the identity on the whole
store; on a present edge (with the endpoints stored and edges unduplicated,
as `MERGE` guarantees) it removes exactly that edge: users and posts are
untouched, the edge count for the pair drops from one to zero, and every
other pair keeps its count. -/
theorem unfollow_user_spec (s : GraphStore) (a b : String) :
    ((a, b) ∉ s.follows → unfollow_user s a b = s) ∧
    ((a, b) ∈ s.follows → s.follows.Nodup → userExists s a = true →
      userExists s b = true →
      (unfollow_user s a b).users = s.users ∧
      (unfollow_user s a b).posted = s.posted ∧
      s.follows.count (a, b) = 1 ∧
      (unfollow_user s a b).follows.count (a, b) = 0 ∧
      ∀ e, e ≠ (a, b) →
        (unfollow_user s a b).follows.count e = s.follows.count e) := by
  constructor
  · intro hnot
    unfold unfollow_user
    by_cases hex : (userExists s a && userExists s b) = true
    · rw [if_pos hex]
      have hid : s.follows.filter (fun e => !(e == (a, b))) = s.follows := by
        rw [List.filter_eq_self]
        intro e he
        simp only [Bool.not_eq_true', beq_eq_false_iff_ne]
        rintro rfl
        exact hnot he
      rw [hid]
    · rw [if_neg hex]
  · intro hmem hnd hua hub
    have hex : (userExists s a && userExists s b) = true := by
      rw [hua, hub]; rfl
    have hres : unfollow_user s a b =
        { s with follows := s.follows.filter (fun e => !(e == (a, b))) } := by
      unfold unfollow_user
      rw [if_pos hex]
    refine ⟨by rw [hres], by rw [hres], count_eq_one_of_nodup_mem hnd hmem,
      ?_, ?_⟩
    · rw [hres]
      refine List.count_eq_zero.mpr (fun hc => ?_)
      have := (List.mem_filter.mp hc).2
      simp at this
    · intro e hne
      rw [hres]
      exact List.count_filter (by simp [hne])

/-- Witness for C7: removing the stored edge `a → b` leaves zero copies of
it. -/
theorem unfollow_user_spec_witness :
    (unfollow_user twoUserStore "a" "b").follows.count ("a", "b") = 0 :=
  ((unfollow_user_spec twoUserStore "a" "b").2 (by decide) (by decide)
    (by decide) (by decide)).2.2.2.1

/-- C1: for stored users `A` and `B` in a well-formed store, following twice
is the same store as following once, that store has exactly one `A → B`
edge, and `B` occurs exactly once in `A`'s following list. -/
theorem follow_user_idempotent (s : GraphStore) (A B : User)
    (hA : A ∈ s.users) (hB : B ∈ s.users) (hwf : Wf s) :
    follow_user (follow_user s A.id B.id) A.id B.id = follow_user s A.id B.id ∧
    (follow_user s A.id B.id).follows.count (A.id, B.id) = 1 ∧
    (get_following (follow_user s A.id B.id) A.id).count B = 1 := by
  have hexA : userExists s A.id = true :=
    List.any_eq_true.mpr ⟨A, hA, by simp⟩
  have hexB : userExists s B.id = true :=
    List.any_eq_true.mpr ⟨B, hB, by simp⟩
  have hcond : (userExists s A.id && userExists s B.id) = true := by
    rw [hexA, hexB]; rfl
  have husers : (follow_user s A.id B.id).users = s.users :=
    follow_user_users s A.id B.id
  have hmem : (A.id, B.id) ∈ (follow_user s A.id B.id).follows := by
    unfold follow_user
    rw [if_pos hcond]
    by_cases hc : s.follows.contains (A.id, B.id)
    · rw [if_pos hc]
      exact contains_true_iff.mp hc
    · rw [if_neg hc]
      exact List.mem_append_right _ (List.mem_singleton.mpr rfl)
  have hcount : (follow_user s A.id B.id).follows.count (A.id, B.id) = 1 := by
    unfold follow_user
    rw [if_pos hcond]
    by_cases hc : s.follows.contains (A.id, B.id)
    · rw [if_pos hc]
      exact count_eq_one_of_nodup_mem hwf.2 (contains_true_iff.mp hc)
    · rw [if_neg hc]
      have hno : (A.id, B.id) ∉ s.follows := fun hm =>
        hc (contains_true_iff.mpr hm)
      rw [List.count_append, List.count_eq_zero.mpr hno]
      simp
  have key : ∀ t : GraphStore, t.users = s.users →
      (A.id, B.id) ∈ t.follows → follow_user t A.id B.id = t := by
    intro t ht hm
    unfold follow_user
    have hexA2 : userExists t A.id = true := by
      unfold userExists
      rw [ht]
      exact hexA
    have hexB2 : userExists t B.id = true := by
      unfold userExists
      rw [ht]
      exact hexB
    rw [if_pos (by rw [hexA2, hexB2]; rfl), if_pos (contains_true_iff.mpr hm)]
  refine ⟨key _ husers hmem, hcount, ?_⟩
  · unfold get_following
    rw [husers]
    have hedge : hasEdge (follow_user s A.id B.id) A.id B.id = true :=
      contains_true_iff.mpr hmem
    rw [List.count_filter (by simp [hedge])]
    exact count_eq_one_of_nodup_mem (hwf.1.of_map User.id) hB

/-- Witness for C1: following `b` from `a` twice in the two-user store keeps
a single `a → b` edge. -/
theorem follow_user_idempotent_witness :
    (follow_user twoUserStore uA.id uB.id).follows.count (uA.id, uB.id) = 1 :=
  (follow_user_idempotent twoUserStore uA uB (by decide) (by decide)
    (by decide)).2.1

/-- C6: with no user of the given id, `update_user` raises the NotFound
`ValueError` and the store is exactly what it was; with a stored user of
that id (ids unique), exactly that user's four fields are replaced — the
users around it, its own id and email, and the edge lists all survive — and
the updated profile comes back. -/
theorem update_user_spec (s : GraphStore) (uid nm un bi av : String) :
    ((∀ u ∈ s.users, u.id ≠ uid) →
      update_user s uid nm un bi av = (s, Except.error PyError.valueError)) ∧
    (∀ (me : User) (l1 l2 : List User), s.users = l1 ++ me :: l2 →
      me.id = uid → (s.users.map User.id).Nodup →
      update_user s uid nm un bi av =
        ({ users := l1 ++
            { me with name := nm, username := un, bio := bi, avatar := av } :: l2,
           follows := s.follows, posted := s.posted },
         Except.ok (baseProfile
           { me with name := nm, username := un, bio := bi, avatar := av }))) := by
  constructor
  · intro h
    have hmap : s.users.map (fun u => if u.id == uid then
        { u with name := nm, username := un, bio := bi, avatar := av }
        else u) = s.users :=
      (List.map_congr_left (fun u hu => by
        rw [if_neg (by simpa using h u hu)]
        rfl)).trans (List.map_id _)
    have hfind : s.users.find? (fun u => u.id == uid) = none :=
      List.find?_eq_none.mpr (fun u hu => by simpa using h u hu)
    unfold update_user
    simp only [hmap, hfind]
  · intro me l1 l2 hsplit hid hnd
    have hndid : me.id ∉ l1.map User.id ++ l2.map User.id := by
      have h1 : (l1.map User.id ++ me.id :: l2.map User.id).Nodup := by
        rw [hsplit] at hnd
        simpa [List.map_append] using hnd
      exact (List.nodup_cons.mp (List.nodup_middle.mp h1)).1
    have hl1 : ∀ u ∈ l1, (u.id == uid) = false := by
      intro u hu
      refine beq_eq_false_iff_ne.mpr (fun he => hndid ?_)
      rw [← hid] at he
      rw [← he]
      exact List.mem_append_left _ (List.mem_map_of_mem User.id hu)
    have hl2 : ∀ u ∈ l2, (u.id == uid) = false := by
      intro u hu
      refine beq_eq_false_iff_ne.mpr (fun he => hndid ?_)
      rw [← hid] at he
      rw [← he]
      exact List.mem_append_right _ (List.mem_map_of_mem User.id hu)
    have hmap : s.users.map (fun u => if u.id == uid then
        { u with name := nm, username := un, bio := bi, avatar := av }
        else u) = l1 ++
          { me with name := nm, username := un, bio := bi, avatar := av } :: l2 := by
      rw [hsplit, List.map_append, List.map_cons]
      rw [(List.map_congr_left (fun u hu => by
        rw [if_neg (by simp [hl1 u hu])]
        rfl)).trans (List.map_id l1)]
      rw [(List.map_congr_left (fun u hu => by
        rw [if_neg (by simp [hl2 u hu])]
        rfl)).trans (List.map_id l2)]
      rw [if_pos (by simp [hid])]
    have hfind : (l1 ++
        { me with name := nm, username := un, bio := bi, avatar := av } :: l2).find?
          (fun u => u.id == uid) = some
        { me with name := nm, username := un, bio := bi, avatar := av } := by
      rw [List.find?_append, List.find?_eq_none.mpr (fun u hu => by
        simp [hl1 u hu]), List.find?_cons_of_pos _ (by simp [hid])]
      rfl
    unfold update_user
    simp only [hmap, hfind]

/-- Witness for C6: updating the sole user of the one-user store rewrites
its four fields and returns the new profile. -/
theorem update_user_spec_witness :
    update_user oneUserStore "a" "Anna" "anna2" "hey" "avatar_3" =
      ({ users := [{ uA with
                     name := "Anna", username := "anna2",
                     bio := "hey", avatar := "avatar_3" }],
         follows := [], posted := [] },
       Except.ok (baseProfile { uA with
                                name := "Anna", username := "anna2",
                                bio := "hey", avatar := "avatar_3" })) :=
  (update_user_spec oneUserStore "a" "Anna" "anna2" "hey" "avatar_3").2
    uA [] [] rfl rfl (by decide)

unseal List.merge List.mergeSort in
/-- Counterexample for C10: in the two-user store the query behind
`get_all_users_except` yields a row, yet the call does not raise
`TypeError` — evaluating the lone-`id` constructor argument fails before
`list.append` is ever invoked with the stray keyword arguments. -/
theorem broken_loop_not_typeError :
    allExceptRows twoUserStore "a" ≠ [] ∧
    get_all_users_except twoUserStore "a" ≠ Except.error PyError.typeError := by
  decide

/-- C10 (amended): whenever its query yields at least one row, each of
`get_following_suggestions`, `search_users`, `explore_popular_users` and
`get_all_users_except` raises the pydantic `ValidationError` (the
misplaced parenthesis hands the constructor only `id`); with zero rows each
returns the empty list. -/
theorem broken_loop_raises_validationError (s : GraphStore)
    (uid term : String) (lim : Nat) :
    (suggestionRows s uid = [] →
      get_following_suggestions s uid lim = Except.ok []) ∧
    (suggestionRows s uid ≠ [] →
      get_following_suggestions s uid lim =
        Except.error PyError.validationError) ∧
    (searchRows s term uid = [] → search_users s term uid = Except.ok []) ∧
    (searchRows s term uid ≠ [] →
      search_users s term uid = Except.error PyError.validationError) ∧
    (popularRows s lim = [] → explore_popular_users s lim = Except.ok []) ∧
    (popularRows s lim ≠ [] →
      explore_popular_users s lim = Except.error PyError.validationError) ∧
    (allExceptRows s uid = [] → get_all_users_except s uid = Except.ok []) ∧
    (allExceptRows s uid ≠ [] →
      get_all_users_except s uid = Except.error PyError.validationError) := by
  have key : ∀ {α : Type} (rows : List α) (g : α → String),
      (rows = [] → buildBroken (rows.map g) = Except.ok []) ∧
      (rows ≠ [] →
        buildBroken (rows.map g) = Except.error PyError.validationError) := by
    intro α rows g
    cases rows with
    | nil => exact ⟨fun _ => rfl, fun h => absurd rfl h⟩
    | cons r rest =>
        exact ⟨fun h => absurd h (List.cons_ne_nil r rest),
          fun _ => buildBroken_cons (g r) (rest.map g)⟩
  exact ⟨(key _ _).1, (key _ _).2, (key _ _).1, (key _ _).2, (key _ _).1,
    (key _ _).2, (key _ _).1, (key _ _).2⟩

unseal List.merge List.mergeSort in
/-- Witness for C10 (amended): in the two-user store, `a` has no
suggestion rows so the suggestion call returns `[]`, while
`get_all_users_except` has a row and raises `ValidationError`. -/
theorem broken_loop_raises_validationError_witness :
    get_following_suggestions twoUserStore "a" 10 = Except.ok [] ∧
    get_all_users_except twoUserStore "a" =
      Except.error PyError.validationError :=
  ⟨(broken_loop_raises_validationError twoUserStore "a" "" 10).1 (by decide),
   (broken_loop_raises_validationError twoUserStore "a" "" 10).2.2.2.2.2.2.2
     (by decide)⟩

unseal List.merge List.mergeSort in
/-- C2: evaluation at the failing input.  In `sugStore`, `a` has the two
friend-of-friend candidates `c` and `d`; the query keeps both rows even
when the call asks for `limit = 1` (the Cypher hardcodes `LIMIT 10` and
ignores the parameter), and the call then raises the pydantic
`ValidationError` instead of returning a ranked list at all. -/
theorem suggestions_limit_ignored :
    (suggestionRows sugStore "a").length = 2 ∧
    get_following_suggestions sugStore "a" 1 =
      Except.error PyError.validationError := by
  decide

/-- C3: the feed is sorted newest-first by `createdAt`; its members are
exactly the well-formed posts of the requester's followees, each packaged
with the author summary; and when the requester follows no one, or the
followees have no posts, it is the empty list rather than an error. -/
theorem get_feed_posts_spec (s : GraphStore) (uid : String) :
    (get_feed_posts s uid).Pairwise (fun x y => y.createdAt ≤ x.createdAt) ∧
    (∀ fp, fp ∈ get_feed_posts s uid ↔
      ∃ f p, f ∈ s.users ∧ hasEdge s uid f.id = true ∧
        (f.id, p) ∈ s.posted ∧ postValid p = true ∧ fp = mkFeedPost p f) ∧
    ((∀ f ∈ s.users, hasEdge s uid f.id = false) →
      get_feed_posts s uid = []) ∧
    ((∀ f ∈ s.users, hasEdge s uid f.id = true →
        s.posted.filter (fun ap => ap.1 == f.id) = []) →
      get_feed_posts s uid = []) := by
  refine ⟨?_, ?_, ?_, ?_⟩
  · unfold get_feed_posts
    rw [List.pairwise_filterMap]
    have hp : ((feedRows s uid).mergeSort
        (fun a b => Nat.ble b.1.createdAt a.1.createdAt)).Pairwise
        (fun a b => Nat.ble b.1.createdAt a.1.createdAt = true) :=
      List.sorted_mergeSort
        (fun a b c hab hbc => by
          simp only [Nat.ble_eq] at *
          omega)
        (fun a b => by
          simp only [Bool.or_eq_true, Nat.ble_eq]
          omega)
        (feedRows s uid)
    refine hp.imp ?_
    intro a b hab x hx y hy
    by_cases hva : postValid a.1
    · by_cases hvb : postValid b.1
      · simp only [hva, if_true, Option.mem_some_iff] at hx
        simp only [hvb, if_true, Option.mem_some_iff] at hy
        subst hx
        subst hy
        simp only [mkFeedPost]
        simpa using hab
      · simp [hvb] at hy
    · simp [hva] at hx
  · intro fp
    unfold get_feed_posts
    rw [List.mem_filterMap]
    constructor
    · rintro ⟨r, hr, hconv⟩
      rw [List.mem_mergeSort] at hr
      unfold feedRows at hr
      rw [List.mem_flatMap] at hr
      obtain ⟨f, hf, hr2⟩ := hr
      rw [List.mem_map] at hr2
      obtain ⟨ap, hap, rfl⟩ := hr2
      have hfu := List.mem_filter.mp hf
      have hap2 := List.mem_filter.mp hap
      by_cases hv : postValid ap.2
      · refine ⟨f, ap.2, hfu.1, hfu.2, ?_, hv, ?_⟩
        · have hfst : ap.1 = f.id := by simpa using hap2.2
          rw [← hfst]
          exact hap2.1
        · simp only [hv, if_true, Option.some.injEq] at hconv
          exact hconv.symm
      · simp [hv] at hconv
    · rintro ⟨f, p, hfu, hedge, hpost, hv, rfl⟩
      refine ⟨(p, f), ?_, by simp [hv]⟩
      rw [List.mem_mergeSort]
      unfold feedRows
      rw [List.mem_flatMap]
      refine ⟨f, List.mem_filter.mpr ⟨hfu, hedge⟩, List.mem_map.mpr
        ⟨(f.id, p), List.mem_filter.mpr ⟨hpost, by simp⟩, rfl⟩⟩
  · intro h
    have hrows : feedRows s uid = [] := by
      unfold feedRows
      rw [List.filter_eq_nil_iff.mpr (fun f hf => by simp [h f hf])]
      rfl
    unfold get_feed_posts
    rw [hrows, List.mergeSort_nil]
    rfl
  · intro h
    have hrows : feedRows s uid = [] := by
      unfold feedRows
      rw [List.flatMap_eq_nil_iff]
      intro f hf
      have hfu := List.mem_filter.mp hf
      rw [h f hfu.1 hfu.2]
      rfl
    unfold get_feed_posts
    rw [hrows, List.mergeSort_nil]
    rfl

/-- Witness for C3: `b` follows no one in the two-user store, so `b`'s feed
is the empty list. -/
theorem get_feed_posts_spec_witness :
    get_feed_posts twoUserStore "b" = [] :=
  (get_feed_posts_spec twoUserStore "b").2.2.1 (by decide)

end Neo4jApp
